import Mathlib

set_option linter.unusedVariables false
set_option maxHeartbeats 1000000
set_option maxRecDepth 8192

/-!
Shallow embedding of the markdown-to-confluence converter (`convert.py`),
with Python strings modelled as `List Char`.  Path helpers follow
`posixpath` (`os.path` on the POSIX build), URL-authority detection follows
`urllib.parse.urlsplit`, and `str.replace` is modelled by `replaceAll`.
-/

/-- Characters of a string literal (Python `str` values are `List Char`). -/
def str (s : String) : List Char := s.data

/-- Index of the last occurrence of `t` in `s` (Python `s.rfind(t)` for a
single character, `none` standing for `-1`). -/
def rfindIdx (t : Char) : List Char → Option Nat
  | [] => none
  | c :: cs =>
    match rfindIdx t cs with
    | some i => some (i + 1)
    | none => if c = t then some 0 else none

/-- Python's `str.lstrip('/')`: drop leading slashes. -/
def lstripSlashes (s : List Char) : List Char := s.dropWhile (fun c => c = '/')

/-- Python's `str.rstrip('/')`: drop trailing slashes. -/
def rstripSlashes (s : List Char) : List Char :=
  (s.reverse.dropWhile (fun c => c = '/')).reverse

/-- Python's `str.strip('*_')`: drop leading and trailing `*` / `_`. -/
def stripEmph (s : List Char) : List Char :=
  let em := fun c => c = '*' || c = '_'
  ((s.dropWhile em).reverse.dropWhile em).reverse

/-- Characters Python's `str.strip()` removes. -/
def isPyWS (c : Char) : Bool :=
  c = ' ' || c = '\t' || c = '\n' || c = '\r' || c = '\x0b' || c = '\x0c'

/-- Python's `str.strip()` with no argument: trim whitespace on both ends. -/
def pyStripWS (s : List Char) : List Char :=
  ((s.dropWhile isPyWS).reverse.dropWhile isPyWS).reverse

/-- `posixpath.dirname`: everything before the final slash, with trailing
slashes removed unless the head is all slashes. -/
def dirname (p : List Char) : List Char :=
  match rfindIdx '/' p with
  | none => []
  | some i =>
    let head := p.take (i + 1)
    if head.all (fun c => c = '/') then head else rstripSlashes head

/-- `posixpath.basename`: everything after the final slash. -/
def basename (p : List Char) : List Char :=
  match rfindIdx '/' p with
  | none => p
  | some i => p.drop (i + 1)

/-- `posixpath.splitext`: split the extension at the last dot, unless every
character between the final separator and that dot is itself a dot (so
leading dots of a hidden file never start an extension). -/
def splitext (p : List Char) : List Char × List Char :=
  let fi := match rfindIdx '/' p with
    | none => 0
    | some i => i + 1
  match rfindIdx '.' p with
  | none => (p, [])
  | some d =>
    if fi ≤ d ∧ ((p.drop fi).take (d - fi)).any (fun c => c ≠ '.') then
      (p.take d, p.drop d)
    else
      (p, [])

/-- Characters allowed in a URL scheme after the initial letter
(`urllib.parse.scheme_chars`). -/
def schemeChars : List Char :=
  str "abcdefghijklmnopqrstuvwxyzABCDEFGHIJKLMNOPQRSTUVWXYZ0123456789+-."

/-- The scheme-splitting step of `urllib.parse.urlsplit`: when the text up to
the first colon is a syntactically valid scheme, return the remainder. -/
def splitScheme (url : List Char) : List Char :=
  match url.findIdx? (fun c => c = ':') with
  | none => url
  | some i =>
    if 0 < i
        ∧ (match url.head? with
            | some c => c.isAlpha
            | none => false) = true
        ∧ ((url.take i).drop 1).all (fun c => schemeChars.contains c) = true then
      url.drop (i + 1)
    else url

/-- The network-authority component of `urllib.parse.urlsplit(src)`: present
exactly when, after scheme removal, the text starts with `//`; it extends to
the next `/`, `?` or `#`.  `bool(urlparse(src).netloc)` is `netloc src ≠ []`. -/
def netloc (s : List Char) : List Char :=
  let url := splitScheme s
  if (str "//").isPrefixOf url then
    (url.drop 2).takeWhile (fun c => !(c = '/' || c = '?' || c = '#'))
  else []

/-- The `Link` enumeration of `convert.py` (lines 21-25). -/
inductive Link where
  | UNKNOWN
  | HEADING
  | ATTACHMENT
  | MD_PAGE_REFERENCE
deriving DecidableEq, Repr

/-- `ConfluenceRenderer.resolve_link` (convert.py lines 250-273): `#`-anchors
are headings, links whose `os.path.dirname` is exactly `images` are
attachments, `.md` extensions are cross-document references, everything else
is unknown. -/
def resolve_link (link : List Char) : Link :=
  if (str "#").isPrefixOf link then .HEADING
  else if dirname link = str "images" then .ATTACHMENT
  else if (splitext link).2 = str ".md" then .MD_PAGE_REFERENCE
  else .UNKNOWN

/-- Claim C1's classification rules exactly as worded: rule 2 compares the
BASE NAME of the link's containing directory against `images`. -/
def claimC1Classify (link : List Char) : Link :=
  if (str "#").isPrefixOf link then .HEADING
  else if basename (dirname link) = str "images" then .ATTACHMENT
  else if (splitext link).2 = str ".md" then .MD_PAGE_REFERENCE
  else .UNKNOWN

/-- Claim C1 amended: rule 2 compares the containing directory itself
(`os.path.dirname`), not its base name, against `images`. -/
def specClassifyAmendedC1 (link : List Char) : Link :=
  if (str "#").isPrefixOf link then .HEADING
  else if dirname link = str "images" then .ATTACHMENT
  else if (splitext link).2 = str ".md" then .MD_PAGE_REFERENCE
  else .UNKNOWN

/-- Fuel-driven worker for `replaceAll`; structural recursion on the fuel so
that the kernel can evaluate it.  Any call site uses fuel `≥ s.length`. -/
def replaceAllF (p r : List Char) : Nat → List Char → List Char
  | _, [] => []
  | 0, s => s
  | fuel + 1, c :: cs =>
    if p ≠ [] ∧ p.isPrefixOf (c :: cs) = true then
      r ++ replaceAllF p r fuel ((c :: cs).drop p.length)
    else
      c :: replaceAllF p r fuel cs

/-- Python's `s.replace(p, r)` for a non-empty pattern `p`: replace every
non-overlapping occurrence of `p` in `s` by `r`, scanning left to right.
(The calls modelled here never pass an empty pattern; for `p = []` this
returns `s` unchanged.) -/
def replaceAll (p r s : List Char) : List Char := replaceAllF p r s.length s

/-- Does `p` occur as a contiguous substring of `s` (Python `p in s`)? -/
def occursIn (p : List Char) : List Char → Bool
  | [] => p.isEmpty
  | c :: cs => p.isPrefixOf (c :: cs) || occursIn p cs

/-- Opening tag of the Confluence `info` structured macro (convert.py line 63). -/
def info_tag : List Char :=
  str "<p><ac:structured-macro ac:name=\"info\"><ac:rich-text-body><p>"

/-- `info_tag.replace('info', 'tip')` (convert.py line 64). -/
def tip_tag : List Char := replaceAll (str "info") (str "tip") info_tag

/-- `info_tag.replace('info', 'note')` (convert.py line 65). -/
def note_tag : List Char := replaceAll (str "info") (str "note") info_tag

/-- `info_tag.replace('info', 'warning')` (convert.py line 66). -/
def warning_tag : List Char := replaceAll (str "info") (str "warning") info_tag

/-- Shared closing tag of the alert macros (convert.py line 67). -/
def close_tag : List Char :=
  str "</p></ac:rich-text-body></ac:structured-macro></p>"

/-- `convert_info_macros` (convert.py lines 53-89): the twelve
`str.replace` chains, in source order — block forms, then inline forms,
then bare (table-nested) forms. -/
def convert_info_macros (html : List Char) : List Char :=
  let html := replaceAll (str "<p>:~</p>") close_tag
    (replaceAll (str "<p>~:</p>") info_tag html)
  let html := replaceAll (str "<p>%~</p>") close_tag
    (replaceAll (str "<p>~%</p>") tip_tag html)
  let html := replaceAll (str "<p>?~</p>") close_tag
    (replaceAll (str "<p>~?</p>") note_tag html)
  let html := replaceAll (str "<p>!~</p>") close_tag
    (replaceAll (str "<p>~!</p>") warning_tag html)
  let html := replaceAll (str ":~</p>") close_tag
    (replaceAll (str "<p>~:") info_tag html)
  let html := replaceAll (str "%~</p>") close_tag
    (replaceAll (str "<p>~%") tip_tag html)
  let html := replaceAll (str "?~</p>") close_tag
    (replaceAll (str "<p>~?") note_tag html)
  let html := replaceAll (str "!~</p>") close_tag
    (replaceAll (str "<p>~!") warning_tag html)
  let html := replaceAll (str ":~") close_tag
    (replaceAll (str "~:") info_tag html)
  let html := replaceAll (str "%~") close_tag
    (replaceAll (str "~%") tip_tag html)
  let html := replaceAll (str "?~") close_tag
    (replaceAll (str "~?") note_tag html)
  let html := replaceAll (str "!~") close_tag
    (replaceAll (str "~!") warning_tag html)
  html

/-- The eight raw alert delimiters (as first/second character pairs):
`~:`, `:~`, `~%`, `%~`, `~?`, `?~`, `~!`, `!~`. -/
def tokens : List (Char × Char) :=
  [('~', ':'), (':', '~'), ('~', '%'), ('%', '~'),
   ('~', '?'), ('?', '~'), ('~', '!'), ('!', '~')]

/-- `noTok s`: none of the eight raw alert delimiters occurs in `s`. -/
def noTok (s : List Char) : Prop :=
  ∀ t ∈ tokens, ¬ occursIn [t.1, t.2] s = true

instance : DecidablePred noTok := fun s => by unfold noTok; infer_instance

/-- A replacement tag is safe for the delimiter analysis when it is
non-empty, contains no raw delimiter, starts with `<` and ends with `>`. -/
def SafeTag (r : List Char) : Prop :=
  r ≠ [] ∧ noTok r ∧ r.head? = some '<' ∧ r.getLast? = some '>'

instance : DecidablePred SafeTag := fun r => by unfold SafeTag; infer_instance

/-- The abstract page-layout collaborator (`pagelayouts.AbstractConfluencePage`):
three abstract hooks plus the `render` template method below. -/
structure AbstractConfluencePage where
  render_toc : Bool → List Char
  render_authors : List (List Char × List Char) → List Char
  render_page : List Char → List Char → List Char → List Char

/-- The template method `AbstractConfluencePage.render` (pagelayouts.py
lines 23-38). -/
def AbstractConfluencePage.render (p : AbstractConfluencePage)
    (content : List Char) (authors : List (List Char × List Char))
    (has_toc : Bool) : List Char :=
  p.render_page content (p.render_authors authors) (p.render_toc has_toc)

/-- The dynamic Python value passed as `page_layout` to the constructor:
`None`, an `AbstractConfluencePage` instance, or some other object (with its
truthiness).  Layout instances are always truthy since the classes define
neither `__bool__` nor `__len__`. -/
inductive PageLayoutArg where
  | pyNone
  | page (p : AbstractConfluencePage)
  | other (truthy : Bool)

/-- Python truthiness of the `page_layout` argument. -/
def pyTruthy : PageLayoutArg → Bool
  | .pyNone => false
  | .page _ => true
  | .other b => b

/-- `isinstance(page_layout, AbstractConfluencePage)`. -/
def isInstanceACP : PageLayoutArg → Bool
  | .page _ => true
  | _ => false

/-- The dynamic Python value passed as `get_title_func`: either a callable
or some non-callable object (for example `None`). -/
inductive TitleFuncArg where
  | callable (f : List Char → List Char)
  | notCallable

/-- The `InvalidArgumentException` raised by the constructor (convert.py
lines 14-19); only the offending argument name is carried here. -/
structure InvalidArgumentException where
  arg_name : List Char

/-- The renderer state (`ConfluenceRenderer` fields set in `__init__`). -/
structure ConfluenceRenderer where
  has_toc : Bool
  attachments : List (List Char)
  page_layout : AbstractConfluencePage
  get_page_title : Option (List Char → List Char)

/-- `ConfluenceRenderer.__init__` (convert.py lines 108-123): reject a falsy
or non-`AbstractConfluencePage` layout, store the title callback only when
`callable(get_title_func)`. -/
def ConfluenceRenderer.init (page_layout : PageLayoutArg)
    (get_title_func : TitleFuncArg) :
    Except InvalidArgumentException ConfluenceRenderer :=
  if pyTruthy page_layout = false ∨ isInstanceACP page_layout = false then
    .error ⟨str "page_layout"⟩
  else
    match page_layout with
    | .page p =>
      .ok { has_toc := false
            attachments := []
            page_layout := p
            get_page_title :=
              match get_title_func with
              | .callable f => some f
              | .notCallable => none }
    | .pyNone => .error ⟨str "page_layout"⟩
    | .other _ => .error ⟨str "page_layout"⟩

/-- Python's `x or ''` applied to an optional string (`None` ↦ `''`). -/
def orEmpty : Option (List Char) → List Char
  | none => []
  | some t => t

/-- ASCII word character (`\w` of the `re` module, over our ASCII inputs). -/
def isWordChar (c : Char) : Bool := c.isAlpha || c.isDigit || c = '_'

/-- Lookahead of mistune's smart-ampersand pattern: after a `&`, is there an
HTML entity tail (`#?\w+;`)? -/
def ampEntityAhead (t : List Char) : Bool :=
  let t' := if t.head? = some '#' then t.tail else t
  let ws := t'.takeWhile isWordChar
  !ws.isEmpty && ((t'.drop ws.length).head? == some ';')

/-- Models the smart-ampersand substitution `re.sub(r'&(?!#?\w+;)', '&amp;', s)`
of the external mistune library (v0.8.x `escape`). -/
def smartAmp : List Char → List Char
  | [] => []
  | c :: t =>
    if c = '&' then
      if ampEntityAhead t then '&' :: smartAmp t
      else str "&amp;" ++ smartAmp t
    else c :: smartAmp t

/-- Models the external dependency `mistune.escape` (v0.8.x) as called by the
renderer (`smart_amp` left at its default `True`): entity-aware ampersand
escaping, then `<`, `>`, and with `quote` also `"` and `'`. -/
def mistuneEscape (quote : Bool) (s : List Char) : List Char :=
  let s := smartAmp s
  let s := replaceAll (str "<") (str "&lt;") s
  let s := replaceAll (str ">") (str "&gt;") s
  if quote then
    replaceAll (str "'") (str "&#39;") (replaceAll (str "\"") (str "&quot;") s)
  else s

/-- Modelled from the spec: the external base renderer's hyperlink output —
"if `src` has a network authority, produce a standard hyperlink unchanged"
(spec 4.1).  The mistune base class producing this anchor tag is not part of
this repository; no claim inspects its exact text. -/
def superLink (src : List Char) (title : Option (List Char))
    (text : List Char) : List Char :=
  if orEmpty title = [] then
    str "<a href=\"" ++ src ++ str "\">" ++ text ++ str "</a>"
  else
    str "<a href=\"" ++ src ++ str "\" title=\"" ++ orEmpty title ++ str "\">"
      ++ text ++ str "</a>"

/-- `ConfluenceRenderer.image` (convert.py lines 163-189): external images
keep a `<ri:url>` reference; repository-relative images emit an
`<ri:attachment>` with the base name and append `src.lstrip('/')`, minus a
leading literal `images`, to `attachments`.  Returns the XHTML and the
updated renderer. -/
def ConfluenceRenderer.image (r : ConfluenceRenderer) (src : List Char)
    (title : Option (List Char)) (alt_text : List Char) :
    List Char × ConfluenceRenderer :=
  let is_external := netloc src ≠ []
  let mkTag := fun (image_tag : List Char) =>
    str "<ac:image ac:align=\"center\">" ++ image_tag
      ++ str " <div style=\"text-align: center;\"><em>" ++ stripEmph alt_text
      ++ str "</em></div></ac:image>"
  if is_external then
    (mkTag (str "<ri:url ri:value=\"" ++ src ++ str "\" />"), r)
  else
    let image_tag := str "<ri:attachment ri:filename=\"" ++ basename src
      ++ str "\" />"
    let attachment := lstripSlashes src
    let attachment :=
      if (str "images").isPrefixOf attachment then
        attachment.drop (str "images").length
      else attachment
    (mkTag image_tag, { r with attachments := r.attachments ++ [attachment] })

/-- Result of the `link` hook: the XHTML, the updated renderer, and the
classification the hook computed (`none` on the external early return, which
never consults `resolve_link`). -/
structure LinkResult where
  html : List Char
  renderer : ConfluenceRenderer
  classified : Option Link

/-- `ConfluenceRenderer.link` (convert.py lines 191-248).  The three internal
templates are the `textwrap.dedent` results of the source literals. -/
def ConfluenceRenderer.link (r : ConfluenceRenderer) (src : List Char)
    (title : Option (List Char)) (text : List Char) : LinkResult :=
  let is_external := netloc src ≠ []
  if is_external then
    ⟨superLink src title text, r, none⟩
  else
    let link_type := resolve_link src
    match link_type with
    | .ATTACHMENT =>
      ⟨str "<ac:link>\n    <ri:attachment ri:filename=\"" ++ basename src
        ++ str "\" />\n    <ac:plain-text-link-body>\n        <![CDATA[" ++ text
        ++ str "]]>\n    </ac:plain-text-link-body>\n</ac:link>\n",
       { r with attachments := r.attachments ++ [src] }, some link_type⟩
    | .MD_PAGE_REFERENCE =>
      let title :=
        match r.get_page_title with
        | some f => some (mistuneEscape true (f src))
        | none => title
      ⟨str "<ac:link>\n    <ri:page ri:content-title=\"" ++ orEmpty title
        ++ str "\" />\n    <ac:plain-text-link-body>\n        <![CDATA[" ++ text
        ++ str "]]>\n    </ac:plain-text-link-body>\n</ac:link>\n",
       r, some link_type⟩
    | .HEADING =>
      ⟨str "<ac:link ac:anchor=\"" ++ orEmpty title
        ++ str "\">\n    <ac:plain-text-link-body>\n        <![CDATA[" ++ text
        ++ str "]]>\n    </ac:plain-text-link-body>\n</ac:link>\n",
       r, some link_type⟩
    | .UNKNOWN =>
      ⟨superLink src title text, r, some link_type⟩

/-- Accumulator of `parse` (convert.py lines 27-51). -/
structure ParseState where
  raw_yaml : List Char
  markdown : List Char
  in_yaml : Bool

/-- The YAML front-matter delimiter `'---'` (convert.py line 11). -/
def YAML_BOUNDARY : List Char := str "---"

/-- One iteration of the `parse` loop: a line stripping to `---` while in
YAML mode with non-empty accumulated YAML ends YAML mode and is dropped;
otherwise the line is appended to the YAML text or the Markdown body. -/
def parseLine (st : ParseState) (line : List Char) : ParseState :=
  if pyStripWS line = YAML_BOUNDARY ∧ st.in_yaml = true ∧ st.raw_yaml ≠ [] then
    { st with in_yaml := false }
  else if st.in_yaml then
    { st with raw_yaml := st.raw_yaml ++ line }
  else
    { st with markdown := st.markdown ++ line }

/-- `parse` (convert.py lines 27-51) on the list of lines `readlines`
produces (each line keeping its trailing newline): returns the raw YAML text
and the stripped Markdown body.  The `yaml.load` of the raw text is an
external library call and is not modelled. -/
def parse (lines : List (List Char)) : List Char × List Char :=
  let st := lines.foldl parseLine ⟨[], [], true⟩
  (st.raw_yaml, pyStripWS st.markdown)

/-- A concrete page layout used to instantiate the renderer in examples. -/
def samplePage : AbstractConfluencePage :=
  ⟨fun _ => [], fun _ => [], fun _ _ _ => []⟩

/-- A freshly constructed renderer over `samplePage` with no title lookup. -/
def sampleRenderer : ConfluenceRenderer := ⟨false, [], samplePage, none⟩

/-! Lemmas about `replaceAll` and `occursIn`. -/

theorem replaceAllF_fuel (p r : List Char) (f₁ : Nat) :
    ∀ (f₂ : Nat) (s : List Char), s.length ≤ f₁ → s.length ≤ f₂ →
      replaceAllF p r f₁ s = replaceAllF p r f₂ s := by
  induction f₁ with
  | zero =>
    intro f₂ s h1 h2
    have hs : s = [] := List.eq_nil_of_length_eq_zero (Nat.le_zero.mp h1)
    subst hs
    cases f₂ <;> rfl
  | succ n ih =>
    intro f₂ s h1 h2
    cases s with
    | nil => cases f₂ <;> rfl
    | cons c cs =>
      cases f₂ with
      | zero => simp at h2
      | succ m =>
        simp only [replaceAllF]
        by_cases hc : p ≠ [] ∧ p.isPrefixOf (c :: cs) = true
        · rw [if_pos hc, if_pos hc]
          have hplen : 0 < p.length := List.length_pos.mpr hc.1
          have hdlen : ((c :: cs).drop p.length).length ≤ n := by
            simp only [List.length_drop, List.length_cons] at *
            omega
          congr 1
          exact ih _ _ hdlen (by
            simp only [List.length_drop, List.length_cons] at *
            omega)
        · rw [if_neg hc, if_neg hc]
          have h1' : cs.length ≤ n := by simpa using h1
          have h2' : cs.length ≤ m := by simpa using h2
          rw [ih _ _ h1' h2']

theorem replaceAll_nil (p r : List Char) : replaceAll p r [] = [] := rfl

theorem replaceAll_pos (p r s : List Char) (hp : p ≠ [])
    (h : p.isPrefixOf s = true) :
    replaceAll p r s = r ++ replaceAll p r (s.drop p.length) := by
  cases s with
  | nil =>
    cases p with
    | nil => exact absurd rfl hp
    | cons a p' => simp [List.isPrefixOf] at h
  | cons c cs =>
    show replaceAllF p r (c :: cs).length (c :: cs) = _
    simp only [List.length_cons, replaceAllF, if_pos (And.intro hp h)]
    congr 1
    apply replaceAllF_fuel
    · have hplen : 0 < p.length := List.length_pos.mpr hp
      simp only [List.length_drop, List.length_cons]
      omega
    · exact le_rfl

theorem replaceAll_cons (p r : List Char) (c : Char) (cs : List Char)
    (h : ¬ (p ≠ [] ∧ p.isPrefixOf (c :: cs) = true)) :
    replaceAll p r (c :: cs) = c :: replaceAll p r cs := by
  show replaceAllF p r (c :: cs).length (c :: cs) = _
  simp only [List.length_cons, replaceAllF, if_neg h]
  rfl

theorem isPrefixOf_exists {p s : List Char} (h : p.isPrefixOf s = true) :
    ∃ w, s = p ++ w := by
  induction p generalizing s with
  | nil => exact ⟨s, rfl⟩
  | cons a p' ih =>
    cases s with
    | nil => simp [List.isPrefixOf] at h
    | cons b s' =>
      simp only [List.isPrefixOf, Bool.and_eq_true, beq_iff_eq] at h
      obtain ⟨w, hw⟩ := ih h.2
      exact ⟨w, by rw [h.1, hw]; rfl⟩

theorem isPrefixOf_append_mono {p u : List Char} (w : List Char)
    (h : p.isPrefixOf u = true) : p.isPrefixOf (u ++ w) = true := by
  induction p generalizing u with
  | nil => simp [List.isPrefixOf]
  | cons a p' ih =>
    cases u with
    | nil => simp [List.isPrefixOf] at h
    | cons b u' =>
      simp only [List.isPrefixOf, Bool.and_eq_true] at h ⊢
      exact ⟨h.1, ih h.2⟩

theorem isPrefixOf_self_append (p w : List Char) :
    p.isPrefixOf (p ++ w) = true := by
  induction p with
  | nil => simp [List.isPrefixOf]
  | cons a p' ih => simp [List.isPrefixOf, ih]

theorem occursIn_nil_pat (s : List Char) : occursIn [] s = true := by
  cases s <;> simp [occursIn, List.isPrefixOf, List.isEmpty]

theorem occursIn_of_isPrefixOf {p s : List Char}
    (h : p.isPrefixOf s = true) : occursIn p s = true := by
  cases s with
  | nil =>
    cases p with
    | nil => rfl
    | cons a p' => simp [List.isPrefixOf] at h
  | cons c cs => simp [occursIn, h]

theorem occursIn_cons_of_tail {p cs : List Char} (c : Char)
    (h : occursIn p cs = true) : occursIn p (c :: cs) = true := by
  simp [occursIn, h]

theorem occursIn_append_right {p v : List Char} (u : List Char)
    (h : occursIn p v = true) : occursIn p (u ++ v) = true := by
  induction u with
  | nil => exact h
  | cons c u' ih => exact occursIn_cons_of_tail c ih

theorem occursIn_append_left {p u : List Char} (w : List Char)
    (h : occursIn p u = true) : occursIn p (u ++ w) = true := by
  induction u with
  | nil =>
    have hp : p = [] := by
      cases p with
      | nil => rfl
      | cons a p' => simp [occursIn, List.isEmpty] at h
    rw [hp]
    exact occursIn_nil_pat _
  | cons c u' ih =>
    simp only [occursIn, Bool.or_eq_true] at h
    rcases h with h | h
    · exact occursIn_of_isPrefixOf (isPrefixOf_append_mono w h)
    · exact occursIn_cons_of_tail c (ih h)

theorem occursIn_take {p s : List Char} (k : Nat)
    (h : occursIn p (s.take k) = true) : occursIn p s = true := by
  have := occursIn_append_left (s.drop k) h
  rwa [List.take_append_drop] at this

theorem occursIn_drop {p s : List Char} (k : Nat)
    (h : occursIn p (s.drop k) = true) : occursIn p s = true := by
  have := occursIn_append_right (s.take k) h
  rwa [List.take_append_drop] at this

theorem occursIn_trans {t p s : List Char} (h1 : occursIn t p = true)
    (h2 : occursIn p s = true) : occursIn t s = true := by
  induction s with
  | nil =>
    have hp : p = [] := by
      cases p with
      | nil => rfl
      | cons a p' => simp [occursIn, List.isEmpty] at h2
    rw [hp] at h1
    exact h1
  | cons c cs ih =>
    simp only [occursIn, Bool.or_eq_true] at h2
    rcases h2 with h2 | h2
    · obtain ⟨w, hw⟩ := isPrefixOf_exists h2
      rw [hw]
      exact occursIn_append_left w h1
    · exact occursIn_cons_of_tail c (ih h2)

theorem isPrefixOf_pair_iff (a b c : Char) (cs : List Char) :
    [a, b].isPrefixOf (c :: cs) = true ↔ (a = c ∧ cs.head? = some b) := by
  cases cs with
  | nil => simp [List.isPrefixOf]
  | cons d cs' =>
    simp only [List.isPrefixOf, Bool.and_eq_true, beq_iff_eq, List.head?_cons,
      Option.some.injEq]
    constructor
    · rintro ⟨h1, h2, -⟩
      exact ⟨h1, h2.symm⟩
    · rintro ⟨h1, h2⟩
      exact ⟨h1, h2.symm, trivial⟩

theorem occursIn_pair_cons (a b c : Char) (cs : List Char) :
    occursIn [a, b] (c :: cs) = true ↔
      ((a = c ∧ cs.head? = some b) ∨ occursIn [a, b] cs = true) := by
  simp only [occursIn, Bool.or_eq_true, isPrefixOf_pair_iff]

theorem occursIn_pair_append (a b : Char) (u v : List Char) :
    occursIn [a, b] (u ++ v) = true ↔
      (occursIn [a, b] u = true ∨ occursIn [a, b] v = true ∨
        (u.getLast? = some a ∧ v.head? = some b)) := by
  induction u with
  | nil =>
    simp [occursIn, List.isEmpty]
  | cons c u' ih =>
    rw [List.cons_append, occursIn_pair_cons, ih, occursIn_pair_cons]
    cases u' with
    | nil =>
      simp only [List.nil_append, List.head?_nil, List.getLast?_singleton,
        List.getLast?_nil, Option.some.injEq, occursIn, List.isEmpty,
        List.isPrefixOf]
      constructor
      · rintro (⟨h1, h2⟩ | h | h | ⟨h1, h2⟩)
        · exact Or.inr (Or.inr ⟨h1.symm, h2⟩)
        · exact absurd h (by simp)
        · exact Or.inr (Or.inl h)
        · exact absurd h1 (by simp)
      · rintro ((⟨h1, h2⟩ | h) | h | ⟨h1, h2⟩)
        · exact absurd h2 (by simp)
        · exact absurd h (by simp)
        · exact Or.inr (Or.inr (Or.inl h))
        · exact Or.inl ⟨h1.symm, h2⟩
    | cons d u'' =>
      rw [List.getLast?_cons_cons]
      simp only [List.cons_append, List.head?_cons]
      tauto

theorem replaceAll_id {p s : List Char} (r : List Char)
    (h : ¬ occursIn p s = true) : replaceAll p r s = s := by
  induction s with
  | nil => rfl
  | cons c cs ih =>
    simp only [occursIn, Bool.or_eq_true, not_or] at h
    rw [replaceAll_cons p r c cs (by
      rintro ⟨-, hpre⟩
      exact h.1 hpre)]
    rw [ih h.2]

theorem head_replaceAll {p r s : List Char} {b : Char} (hrne : r ≠ [])
    (h : (replaceAll p r s).head? = some b) :
    r.head? = some b ∨ s.head? = some b := by
  cases s with
  | nil => rw [replaceAll_nil] at h; exact absurd h (by simp)
  | cons c cs =>
    by_cases hc : p ≠ [] ∧ p.isPrefixOf (c :: cs) = true
    · rw [replaceAll_pos p r (c :: cs) hc.1 hc.2] at h
      cases r with
      | nil => exact absurd rfl hrne
      | cons rh rt => exact Or.inl (by simpa using h)
    · rw [replaceAll_cons p r c cs hc] at h
      exact Or.inr (by simpa using h)

theorem not_occursIn_replaceAll {a b : Char} {p r : List Char} (hp : p ≠ [])
    (hrne : r ≠ []) (hr : ¬ occursIn [a, b] r = true)
    (hrh : r.head? ≠ some b) (hrl : r.getLast? ≠ some a) :
    ∀ (n : Nat) (s : List Char), s.length ≤ n → ¬ occursIn [a, b] s = true →
      ¬ occursIn [a, b] (replaceAll p r s) = true := by
  intro n
  induction n with
  | zero =>
    intro s hlen hs
    have : s = [] := List.eq_nil_of_length_eq_zero (Nat.le_zero.mp hlen)
    subst this
    rw [replaceAll_nil]
    simp [occursIn, List.isEmpty]
  | succ n ih =>
    intro s hlen hs
    cases s with
    | nil =>
      rw [replaceAll_nil]
      simp [occursIn, List.isEmpty]
    | cons c cs =>
      by_cases hc : p.isPrefixOf (c :: cs) = true
      · rw [replaceAll_pos p r (c :: cs) hp hc]
        have hplen : 0 < p.length := List.length_pos.mpr hp
        have hdrop : ¬ occursIn [a, b] ((c :: cs).drop p.length) = true :=
          fun hd => hs (occursIn_drop p.length hd)
        have hdlen : ((c :: cs).drop p.length).length ≤ n := by
          simp only [List.length_drop, List.length_cons] at *
          omega
        have htail := ih _ hdlen hdrop
        intro hocc
        rcases (occursIn_pair_append a b r _).mp hocc with h | h | ⟨h1, h2⟩
        · exact hr h
        · exact htail h
        · exact hrl h1
      · rw [replaceAll_cons p r c cs (fun hand => hc hand.2)]
        have hcs : ¬ occursIn [a, b] cs = true :=
          fun hd => hs (occursIn_cons_of_tail c hd)
        have htail := ih cs (by
          simp only [List.length_cons] at hlen
          omega) hcs
        intro hocc
        rcases (occursIn_pair_cons a b c _).mp hocc with ⟨h1, h2⟩ | h
        · rcases head_replaceAll hrne h2 with hh | hh
          · exact hrh hh
          · exact hs ((occursIn_pair_cons a b c cs).mpr (Or.inl ⟨h1, hh⟩))
        · exact htail h

theorem not_occursIn_replaceAll_self {a b : Char} {r : List Char}
    (hrne : r ≠ []) (hr : ¬ occursIn [a, b] r = true)
    (hrh : r.head? ≠ some b) (hrl : r.getLast? ≠ some a) :
    ∀ (n : Nat) (s : List Char), s.length ≤ n →
      ¬ occursIn [a, b] (replaceAll [a, b] r s) = true := by
  intro n
  induction n with
  | zero =>
    intro s hlen
    have : s = [] := List.eq_nil_of_length_eq_zero (Nat.le_zero.mp hlen)
    subst this
    rw [replaceAll_nil]
    simp [occursIn, List.isEmpty]
  | succ n ih =>
    intro s hlen
    cases s with
    | nil =>
      rw [replaceAll_nil]
      simp [occursIn, List.isEmpty]
    | cons c cs =>
      by_cases hc : [a, b].isPrefixOf (c :: cs) = true
      · rw [replaceAll_pos [a, b] r (c :: cs) (by simp) hc]
        have hdlen : ((c :: cs).drop [a, b].length).length ≤ n := by
          simp only [List.length_drop, List.length_cons]
          simp only [List.length_cons] at hlen
          omega
        have htail := ih _ hdlen
        intro hocc
        rcases (occursIn_pair_append a b r _).mp hocc with h | h | ⟨h1, h2⟩
        · exact hr h
        · exact htail h
        · exact hrl h1
      · rw [replaceAll_cons [a, b] r c cs (fun hand => hc hand.2)]
        have htail := ih cs (by
          simp only [List.length_cons] at hlen
          omega)
        intro hocc
        rcases (occursIn_pair_cons a b c _).mp hocc with ⟨h1, h2⟩ | h
        · rcases head_replaceAll hrne h2 with hh | hh
          · exact hrh hh
          · exact hc ((isPrefixOf_pair_iff a b c cs).mpr ⟨h1, hh⟩)
        · exact htail h

theorem replaceAll_append_of_no_occ (p r : List Char) :
    ∀ (u v : List Char),
      (∀ u₁ u₂, u = u₁ ++ u₂ → u₂ ≠ [] → ¬ p.isPrefixOf (u₂ ++ v) = true) →
      replaceAll p r (u ++ v) = u ++ replaceAll p r v := by
  intro u
  induction u with
  | nil => intro v h; rfl
  | cons c u' ih =>
    intro v h
    have hpre : ¬ p.isPrefixOf ((c :: u') ++ v) = true :=
      h [] (c :: u') rfl (by simp)
    rw [List.cons_append, replaceAll_cons p r c (u' ++ v)
      (fun hand => hpre (by simpa using hand.2))]
    rw [ih v (fun u₁ u₂ hu hne => h (c :: u₁) u₂ (by rw [hu]; rfl) hne)]
    rfl

theorem tok_facts : ∀ t ∈ tokens, t.2 ≠ '<' ∧ t.1 ≠ '>' := by decide

theorem safe_info : SafeTag info_tag := by decide

theorem safe_tip : SafeTag tip_tag := by decide

theorem safe_note : SafeTag note_tag := by decide

theorem safe_warning : SafeTag warning_tag := by decide

theorem safe_close : SafeTag close_tag := by decide

theorem pass_preserve {a b : Char} (hab : (a, b) ∈ tokens) (p r : List Char)
    (hp : p ≠ []) (hsafe : SafeTag r) {s : List Char}
    (hs : ¬ occursIn [a, b] s = true) :
    ¬ occursIn [a, b] (replaceAll p r s) = true := by
  obtain ⟨hrne, hrtok, hrh, hrl⟩ := hsafe
  refine not_occursIn_replaceAll hp hrne (hrtok (a, b) hab) ?_ ?_
    s.length s le_rfl hs
  · rw [hrh]
    intro hcon
    exact (tok_facts (a, b) hab).1 (Option.some.inj hcon).symm
  · rw [hrl]
    intro hcon
    exact (tok_facts (a, b) hab).2 (Option.some.inj hcon.symm)

theorem pass_kill {a b : Char} (hab : (a, b) ∈ tokens) (r : List Char)
    (hsafe : SafeTag r) (s : List Char) :
    ¬ occursIn [a, b] (replaceAll [a, b] r s) = true := by
  obtain ⟨hrne, hrtok, hrh, hrl⟩ := hsafe
  refine not_occursIn_replaceAll_self hrne (hrtok (a, b) hab) ?_ ?_
    s.length s le_rfl
  · rw [hrh]
    intro hcon
    exact (tok_facts (a, b) hab).1 (Option.some.inj hcon).symm
  · rw [hrl]
    intro hcon
    exact (tok_facts (a, b) hab).2 (Option.some.inj hcon.symm)

theorem pass_id (pat r : List Char) (a b : Char) (hab : (a, b) ∈ tokens)
    (hocc : occursIn [a, b] pat = true) {s : List Char} (hs : noTok s) :
    replaceAll pat r s = s :=
  replaceAll_id r (fun h => hs (a, b) hab (occursIn_trans hocc h))

theorem noTok_convert (s : List Char) : noTok (convert_info_macros s) := by
  intro t ht
  simp only [convert_info_macros]
  fin_cases ht
  · refine pass_preserve (by decide) _ _ (by decide) safe_close ?_
    refine pass_preserve (by decide) _ _ (by decide) safe_warning ?_
    refine pass_preserve (by decide) _ _ (by decide) safe_close ?_
    refine pass_preserve (by decide) _ _ (by decide) safe_note ?_
    refine pass_preserve (by decide) _ _ (by decide) safe_close ?_
    refine pass_preserve (by decide) _ _ (by decide) safe_tip ?_
    refine pass_preserve (by decide) _ _ (by decide) safe_close ?_
    exact pass_kill (by decide) _ safe_info _
  · refine pass_preserve (by decide) _ _ (by decide) safe_close ?_
    refine pass_preserve (by decide) _ _ (by decide) safe_warning ?_
    refine pass_preserve (by decide) _ _ (by decide) safe_close ?_
    refine pass_preserve (by decide) _ _ (by decide) safe_note ?_
    refine pass_preserve (by decide) _ _ (by decide) safe_close ?_
    refine pass_preserve (by decide) _ _ (by decide) safe_tip ?_
    exact pass_kill (by decide) _ safe_close _
  · refine pass_preserve (by decide) _ _ (by decide) safe_close ?_
    refine pass_preserve (by decide) _ _ (by decide) safe_warning ?_
    refine pass_preserve (by decide) _ _ (by decide) safe_close ?_
    refine pass_preserve (by decide) _ _ (by decide) safe_note ?_
    refine pass_preserve (by decide) _ _ (by decide) safe_close ?_
    exact pass_kill (by decide) _ safe_tip _
  · refine pass_preserve (by decide) _ _ (by decide) safe_close ?_
    refine pass_preserve (by decide) _ _ (by decide) safe_warning ?_
    refine pass_preserve (by decide) _ _ (by decide) safe_close ?_
    refine pass_preserve (by decide) _ _ (by decide) safe_note ?_
    exact pass_kill (by decide) _ safe_close _
  · refine pass_preserve (by decide) _ _ (by decide) safe_close ?_
    refine pass_preserve (by decide) _ _ (by decide) safe_warning ?_
    refine pass_preserve (by decide) _ _ (by decide) safe_close ?_
    exact pass_kill (by decide) _ safe_note _
  · refine pass_preserve (by decide) _ _ (by decide) safe_close ?_
    refine pass_preserve (by decide) _ _ (by decide) safe_warning ?_
    exact pass_kill (by decide) _ safe_close _
  · refine pass_preserve (by decide) _ _ (by decide) safe_close ?_
    exact pass_kill (by decide) _ safe_warning _
  · exact pass_kill (by decide) _ safe_close _

theorem convert_fix {h : List Char} (hn : noTok h) :
    convert_info_macros h = h := by
  simp only [convert_info_macros]
  rw [pass_id (str "<p>~:</p>") info_tag '~' ':' (by decide) (by decide) hn]
  rw [pass_id (str "<p>:~</p>") close_tag ':' '~' (by decide) (by decide) hn]
  rw [pass_id (str "<p>~%</p>") tip_tag '~' '%' (by decide) (by decide) hn]
  rw [pass_id (str "<p>%~</p>") close_tag '%' '~' (by decide) (by decide) hn]
  rw [pass_id (str "<p>~?</p>") note_tag '~' '?' (by decide) (by decide) hn]
  rw [pass_id (str "<p>?~</p>") close_tag '?' '~' (by decide) (by decide) hn]
  rw [pass_id (str "<p>~!</p>") warning_tag '~' '!' (by decide) (by decide) hn]
  rw [pass_id (str "<p>!~</p>") close_tag '!' '~' (by decide) (by decide) hn]
  rw [pass_id (str "<p>~:") info_tag '~' ':' (by decide) (by decide) hn]
  rw [pass_id (str ":~</p>") close_tag ':' '~' (by decide) (by decide) hn]
  rw [pass_id (str "<p>~%") tip_tag '~' '%' (by decide) (by decide) hn]
  rw [pass_id (str "%~</p>") close_tag '%' '~' (by decide) (by decide) hn]
  rw [pass_id (str "<p>~?") note_tag '~' '?' (by decide) (by decide) hn]
  rw [pass_id (str "?~</p>") close_tag '?' '~' (by decide) (by decide) hn]
  rw [pass_id (str "<p>~!") warning_tag '~' '!' (by decide) (by decide) hn]
  rw [pass_id (str "!~</p>") close_tag '!' '~' (by decide) (by decide) hn]
  rw [pass_id (str "~:") info_tag '~' ':' (by decide) (by decide) hn]
  rw [pass_id (str ":~") close_tag ':' '~' (by decide) (by decide) hn]
  rw [pass_id (str "~%") tip_tag '~' '%' (by decide) (by decide) hn]
  rw [pass_id (str "%~") close_tag '%' '~' (by decide) (by decide) hn]
  rw [pass_id (str "~?") note_tag '~' '?' (by decide) (by decide) hn]
  rw [pass_id (str "?~") close_tag '?' '~' (by decide) (by decide) hn]
  rw [pass_id (str "~!") warning_tag '~' '!' (by decide) (by decide) hn]
  rw [pass_id (str "!~") close_tag '!' '~' (by decide) (by decide) hn]

theorem no_colon_tilde_in_open (c : List Char) (hc : noTok c) :
    ¬ occursIn [':', '~'] (info_tag ++ c) = true := by
  intro h
  rcases (occursIn_pair_append ':' '~' info_tag c).mp h with h | h | ⟨h1, h2⟩
  · exact absurd h (by decide)
  · exact hc (':', '~') (by decide) h
  · exact absurd h1 (by decide)

theorem step_block_open (c : List Char) (hc : noTok c) :
    replaceAll (str "<p>~:</p>") info_tag
        (str "<p>~:</p>" ++ (c ++ str "<p>:~</p>"))
      = info_tag ++ (c ++ str "<p>:~</p>") := by
  rw [replaceAll_pos _ _ _ (by decide) (isPrefixOf_self_append _ _),
    List.drop_left]
  congr 1
  apply replaceAll_id
  intro h
  have htok := occursIn_trans
    (show occursIn ['~', ':'] (str "<p>~:</p>") = true by decide) h
  rcases (occursIn_pair_append '~' ':' c (str "<p>:~</p>")).mp htok with
    h' | h' | ⟨h1, h2⟩
  · exact hc ('~', ':') (by decide) h'
  · exact absurd h' (by decide)
  · exact absurd h2 (by decide)

theorem step_block_close (c : List Char) (hc : noTok c) :
    replaceAll (str "<p>:~</p>") close_tag
        ((info_tag ++ c) ++ str "<p>:~</p>")
      = (info_tag ++ c) ++ close_tag := by
  rw [replaceAll_append_of_no_occ _ _ (info_tag ++ c) (str "<p>:~</p>") ?_]
  · congr 1
  · intro u₁ u₂ hu hne hpre
    obtain ⟨w, hw⟩ := isPrefixOf_exists hpre
    have hP2len : (str "<p>:~</p>").length = 9 := by decide
    have hkpos : 0 < u₂.length := List.length_pos.mpr hne
    by_cases hbig : 9 ≤ u₂.length
    · have htake : u₂.take 9 = str "<p>:~</p>" := by
        have h1 := congrArg (List.take 9) hw
        rw [List.take_append_eq_append_take, List.take_append_eq_append_take,
          hP2len] at h1
        simp only [Nat.sub_self, List.take_zero, List.append_nil] at h1
        rw [Nat.sub_eq_zero_of_le hbig, List.take_zero, List.append_nil] at h1
        rw [h1, List.take_of_length_le (le_of_eq hP2len)]
      have hocc2 : occursIn [':', '~'] u₂ = true :=
        occursIn_take 9 (by rw [htake]; decide)
      have hocc3 : occursIn [':', '~'] (info_tag ++ c) = true := by
        rw [hu]
        exact occursIn_append_right u₁ hocc2
      exact no_colon_tilde_in_open c hc hocc3
    · have hdropw : (u₂ ++ str "<p>:~</p>").drop u₂.length = str "<p>:~</p>" :=
        List.drop_left _ _
      have hdrop2 : (str "<p>:~</p>" ++ w).drop u₂.length
          = (str "<p>:~</p>").drop u₂.length ++ w := by
        rw [List.drop_append_eq_append_drop, hP2len,
          Nat.sub_eq_zero_of_le (by omega), List.drop_zero]
      have hkey : str "<p>:~</p>"
          = (str "<p>:~</p>").drop u₂.length ++ w :=
        calc str "<p>:~</p>"
            = (u₂ ++ str "<p>:~</p>").drop u₂.length := hdropw.symm
          _ = (str "<p>:~</p>" ++ w).drop u₂.length := by rw [hw]
          _ = (str "<p>:~</p>").drop u₂.length ++ w := hdrop2
      have hdl : ((str "<p>:~</p>").drop u₂.length).length = 9 - u₂.length := by
        rw [List.length_drop, hP2len]
      have hdt := congrArg (List.take (9 - u₂.length)) hkey
      rw [List.take_append_eq_append_take, hdl, Nat.sub_self, List.take_zero,
        List.append_nil, List.take_of_length_le (le_of_eq hdl)] at hdt
      have hk1 : 1 ≤ u₂.length := hkpos
      have hk8 : u₂.length ≤ 8 := by omega
      generalize hgen : u₂.length = k at hdt hk1 hk8
      interval_cases k
      · exact absurd hdt (by decide)
      · exact absurd hdt (by decide)
      · exact absurd hdt (by decide)
      · exact absurd hdt (by decide)
      · exact absurd hdt (by decide)
      · exact absurd hdt (by decide)
      · exact absurd hdt (by decide)
      · exact absurd hdt (by decide)

theorem noTok_sandwich {c : List Char} (hc : noTok c) :
    noTok ((info_tag ++ c) ++ close_tag) := by
  intro t ht hocc
  rcases (occursIn_pair_append t.1 t.2 (info_tag ++ c) close_tag).mp hocc with
    h | h | ⟨h1, h2⟩
  · rcases (occursIn_pair_append t.1 t.2 info_tag c).mp h with h' | h' | ⟨h1', h2'⟩
    · exact safe_info.2.1 t ht (by simpa using h')
    · exact hc t ht h'
    · have : t.1 = '>' := by
        have hlast : info_tag.getLast? = some '>' := by decide
        rw [hlast] at h1'
        exact (Option.some.inj h1').symm
      exact (tok_facts t ht).2 this
  · exact safe_close.2.1 t ht (by simpa using h)
  · have : t.2 = '<' := by
      have hh : close_tag.head? = some '<' := by decide
      rw [hh] at h2
      exact (Option.some.inj h2).symm
    exact (tok_facts t ht).1 this

theorem foldl_parseLine_yaml (ys : List (List Char)) :
    ∀ st : ParseState, st.in_yaml = true →
      (∀ y ∈ ys, pyStripWS y ≠ YAML_BOUNDARY) →
      ys.foldl parseLine st
        = ⟨st.raw_yaml ++ ys.flatten, st.markdown, true⟩ := by
  induction ys with
  | nil =>
    intro st h1 h2
    cases st with
    | mk raw md iy =>
      simp only [List.foldl_nil, List.flatten_nil, List.append_nil]
      simp only at h1
      rw [h1]
  | cons y ys ih =>
    intro st h1 h2
    rw [List.foldl_cons]
    have hstep : parseLine st y = { st with raw_yaml := st.raw_yaml ++ y } := by
      unfold parseLine
      rw [if_neg (fun hand => h2 y (List.mem_cons_self y ys) hand.1), if_pos h1]
    rw [hstep, ih { st with raw_yaml := st.raw_yaml ++ y } h1
      (fun z hz => h2 z (List.mem_cons_of_mem _ hz))]
    simp [List.append_assoc]

theorem foldl_parseLine_md (bs : List (List Char)) :
    ∀ st : ParseState, st.in_yaml = false →
      bs.foldl parseLine st
        = ⟨st.raw_yaml, st.markdown ++ bs.flatten, false⟩ := by
  induction bs with
  | nil =>
    intro st h1
    cases st with
    | mk raw md iy =>
      simp only [List.foldl_nil, List.flatten_nil, List.append_nil]
      simp only at h1
      rw [h1]
  | cons b bs ih =>
    intro st h1
    rw [List.foldl_cons]
    have hstep : parseLine st b = { st with markdown := st.markdown ++ b } := by
      unfold parseLine
      rw [if_neg (fun hand => by rw [h1] at hand; exact absurd hand.2.1 (by simp)),
        if_neg (by rw [h1]; simp)]
    rw [hstep, ih { st with markdown := st.markdown ++ b } h1]
    simp [List.append_assoc]

/-- Claim C1 counterexample: for the nested path `a/images/pic.png`, the
claim's rule 2 (base name of the containing directory equals `images`)
yields ATTACHMENT, but `resolve_link` compares the entire dirname
(`a/images`) with `images` and returns UNKNOWN. -/
theorem claimC1_counterexample :
    claimC1Classify (str "a/images/pic.png") = Link.ATTACHMENT
      ∧ resolve_link (str "a/images/pic.png") = Link.UNKNOWN
      ∧ basename (dirname (str "a/images/pic.png")) = str "images" := by
  decide

/-- Claim C1 amended: `resolve_link` classifies by exactly the claim's rules
in the claim's priority order, except that rule 2 compares the link's whole
containing directory (`os.path.dirname`), not its base name, with `images`;
the four examples of the claim hold as stated. -/
theorem claimC1_amended :
    (∀ l : List Char, resolve_link l = specClassifyAmendedC1 l)
      ∧ resolve_link (str "#section") = Link.HEADING
      ∧ resolve_link (str "images/pic.png") = Link.ATTACHMENT
      ∧ resolve_link (str "other/doc.md") = Link.MD_PAGE_REFERENCE
      ∧ resolve_link (str "other/doc.txt") = Link.UNKNOWN :=
  ⟨fun l => rfl, by decide, by decide, by decide, by decide⟩

/-- Claim C3: applying the translator to a block-form opening info paragraph,
followed by content containing none of the eight delimiters, followed by the
block-form closing paragraph, yields exactly the opening info macro tag, the
untouched content, and the closing macro tag. -/
theorem claimC3_roundtrip (c : List Char) (hc : noTok c) :
    convert_info_macros (str "<p>~:</p>" ++ c ++ str "<p>:~</p>")
      = info_tag ++ c ++ close_tag := by
  simp only [convert_info_macros]
  rw [List.append_assoc, step_block_open c hc, ← List.append_assoc,
    step_block_close c hc]
  have hD := noTok_sandwich hc
  rw [pass_id (str "<p>~%</p>") tip_tag '~' '%' (by decide) (by decide) hD]
  rw [pass_id (str "<p>%~</p>") close_tag '%' '~' (by decide) (by decide) hD]
  rw [pass_id (str "<p>~?</p>") note_tag '~' '?' (by decide) (by decide) hD]
  rw [pass_id (str "<p>?~</p>") close_tag '?' '~' (by decide) (by decide) hD]
  rw [pass_id (str "<p>~!</p>") warning_tag '~' '!' (by decide) (by decide) hD]
  rw [pass_id (str "<p>!~</p>") close_tag '!' '~' (by decide) (by decide) hD]
  rw [pass_id (str "<p>~:") info_tag '~' ':' (by decide) (by decide) hD]
  rw [pass_id (str ":~</p>") close_tag ':' '~' (by decide) (by decide) hD]
  rw [pass_id (str "<p>~%") tip_tag '~' '%' (by decide) (by decide) hD]
  rw [pass_id (str "%~</p>") close_tag '%' '~' (by decide) (by decide) hD]
  rw [pass_id (str "<p>~?") note_tag '~' '?' (by decide) (by decide) hD]
  rw [pass_id (str "?~</p>") close_tag '?' '~' (by decide) (by decide) hD]
  rw [pass_id (str "<p>~!") warning_tag '~' '!' (by decide) (by decide) hD]
  rw [pass_id (str "!~</p>") close_tag '!' '~' (by decide) (by decide) hD]
  rw [pass_id (str "~:") info_tag '~' ':' (by decide) (by decide) hD]
  rw [pass_id (str ":~") close_tag ':' '~' (by decide) (by decide) hD]
  rw [pass_id (str "~%") tip_tag '~' '%' (by decide) (by decide) hD]
  rw [pass_id (str "%~") close_tag '%' '~' (by decide) (by decide) hD]
  rw [pass_id (str "~?") note_tag '~' '?' (by decide) (by decide) hD]
  rw [pass_id (str "?~") close_tag '?' '~' (by decide) (by decide) hD]
  rw [pass_id (str "~!") warning_tag '~' '!' (by decide) (by decide) hD]
  rw [pass_id (str "!~") close_tag '!' '~' (by decide) (by decide) hD]

/-- Claim C3 witness: the round trip at the concrete content
`<p>hello</p>`. -/
theorem claimC3_witness :
    convert_info_macros
        (str "<p>~:</p>" ++ str "<p>hello</p>" ++ str "<p>:~</p>")
      = info_tag ++ str "<p>hello</p>" ++ close_tag :=
  claimC3_roundtrip (str "<p>hello</p>") (by decide)

/-- Claim C4: the alert-macro translator is idempotent — its output contains
no raw delimiter, so a second application changes nothing. -/
theorem claimC4_idempotent (h : List Char) :
    convert_info_macros (convert_info_macros h) = convert_info_macros h :=
  convert_fix (noTok_convert h)

/-- Claim C5 counterexample: a document with no metadata block yields an
EMPTY Markdown body — the whole content is accumulated as metadata text —
contradicting the claim that such a document yields its entire content as
the body. -/
theorem claimC5_counterexample :
    (parse [str "hello\n"]).2 = []
      ∧ (parse [str "hello\n"]).1 = str "hello\n"
      ∧ str "hello\n" ≠ [] := by
  decide

/-- Claim C5 amended: metadata mode is active from the first line onward; a
line stripping to `---` while the accumulated metadata is non-empty ends
metadata mode and is dropped (a leading `---` line is itself consumed into
the metadata text because the accumulator is still empty); everything after
that closing line becomes the (stripped) Markdown body; and a document with
no `---` line yields its entire content as metadata and an empty body. -/
theorem claimC5_amended :
    (∀ ys bs : List (List Char),
        (∀ y ∈ ys, pyStripWS y ≠ YAML_BOUNDARY) →
        parse (str "---\n" :: (ys ++ str "---\n" :: bs))
          = (str "---\n" ++ ys.flatten, pyStripWS bs.flatten))
      ∧ (∀ ls : List (List Char),
        (∀ l ∈ ls, pyStripWS l ≠ YAML_BOUNDARY) →
        parse ls = (ls.flatten, [])) := by
  constructor
  · intro ys bs hys
    unfold parse
    rw [List.foldl_cons]
    have hst1 : parseLine ⟨[], [], true⟩ (str "---\n")
        = ⟨str "---\n", [], true⟩ := by
      unfold parseLine
      rw [if_neg (fun hand => hand.2.2 rfl), if_pos rfl]
      simp
    rw [hst1, List.foldl_append,
      foldl_parseLine_yaml ys ⟨str "---\n", [], true⟩ rfl hys,
      List.foldl_cons]
    have hst2 : parseLine ⟨str "---\n" ++ ys.flatten, [], true⟩ (str "---\n")
        = ⟨str "---\n" ++ ys.flatten, [], false⟩ := by
      unfold parseLine
      rw [if_pos ⟨rfl, rfl,
        List.append_ne_nil_of_left_ne_nil (by decide) _⟩]
    rw [hst2, foldl_parseLine_md bs ⟨str "---\n" ++ ys.flatten, [], false⟩ rfl]
    simp
  · intro ls hls
    unfold parse
    rw [foldl_parseLine_yaml ls ⟨[], [], true⟩ rfl hls]
    simp [pyStripWS]

/-- Claim C5 witness: the amended behaviour at a concrete front-matter
document and at a concrete delimiter-free document. -/
theorem claimC5_witness :
    parse [str "---\n", str "title: x\n", str "---\n", str "body\n"]
        = (str "---\n" ++ str "title: x\n", str "body")
      ∧ parse [str "plain\n"] = (str "plain\n", []) :=
  ⟨(claimC5_amended.1 [str "title: x\n"] [str "body\n"] (by decide)).trans
      (by decide),
    (claimC5_amended.2 [str "plain\n"] (by decide)).trans (by decide)⟩

theorem lstrip_images_append (rest : List Char) :
    lstripSlashes (str "images/" ++ rest) = str "images/" ++ rest := by
  unfold lstripSlashes
  rw [show str "images/" ++ rest = 'i' :: (str "mages/" ++ rest) from rfl]
  rw [List.dropWhile_cons, if_neg (by decide)]

/-- Claim C2 counterexample: for `src = "images/pic.png"` (no network
authority, under the assets directory) the appended attachment path is
`/pic.png`: it begins with a path separator and differs from the claim's
`pic.png`, because the code strips leading slashes before, not after,
removing the `images` prefix. -/
theorem claimC2_counterexample :
    (ConfluenceRenderer.image sampleRenderer (str "images/pic.png") none []).2.attachments
        = [str "/pic.png"]
      ∧ (str "/pic.png").head? = some '/'
      ∧ str "/pic.png" ≠ str "pic.png" := by
  refine ⟨by decide, by decide, by decide⟩

/-- Claim C2 amended: for a repository-relative image path under the assets
directory (`images/<rest>`), the appended path equals `src` with leading
slashes stripped first and then the six-character literal `images` prefix
removed, so the recorded path keeps the separator that followed `images`. -/
theorem claimC2_amended (r : ConfluenceRenderer) (rest : List Char)
    (title : Option (List Char)) (alt : List Char)
    (hnet : netloc (str "images/" ++ rest) = []) :
    (r.image (str "images/" ++ rest) title alt).2.attachments
      = r.attachments ++ ['/' :: rest] := by
  simp only [ConfluenceRenderer.image]
  rw [if_neg (fun hcon => hcon hnet)]
  rw [lstrip_images_append]
  rw [show str "images/" ++ rest = str "images" ++ ('/' :: rest) from rfl]
  rw [if_pos (isPrefixOf_self_append _ _), List.drop_left]

/-- Claim C2 witness: the amended behaviour at `rest = pic.png`. -/
theorem claimC2_witness :
    netloc (str "images/" ++ str "pic.png") = []
      ∧ (ConfluenceRenderer.image sampleRenderer (str "images/" ++ str "pic.png")
          none []).2.attachments = [] ++ ['/' :: str "pic.png"] :=
  ⟨by decide, claimC2_amended sampleRenderer (str "pic.png") none [] (by decide)⟩

/-- Claim C6: for any `src` whose URL parse yields a non-empty network
authority, the image hook leaves the renderer (hence the attachments list)
unchanged, and the link hook leaves the renderer unchanged and records no
classification — it takes the external early return without consulting
`resolve_link`. -/
theorem claimC6_external_frame (r : ConfluenceRenderer) (src : List Char)
    (title : Option (List Char)) (text alt : List Char)
    (hnet : netloc src ≠ []) :
    (r.image src title alt).2 = r
      ∧ (r.link src title text).renderer = r
      ∧ (r.link src title text).classified = none := by
  refine ⟨?_, ?_, ?_⟩ <;>
    simp only [ConfluenceRenderer.image, ConfluenceRenderer.link] <;>
    rw [if_pos hnet]

/-- Claim C6 witness: the frame property at a concrete external URL. -/
theorem claimC6_witness :
    (sampleRenderer.image (str "http://example.com/pic.png") none (str "a")).2
        = sampleRenderer
      ∧ (sampleRenderer.link (str "http://example.com/doc") none (str "t")).renderer
        = sampleRenderer
      ∧ (sampleRenderer.link (str "http://example.com/doc") none (str "t")).classified
        = none := by
  have h1 := claimC6_external_frame sampleRenderer (str "http://example.com/pic.png")
    none (str "t") (str "a") (by decide)
  have h2 := claimC6_external_frame sampleRenderer (str "http://example.com/doc")
    none (str "t") (str "a") (by decide)
  exact ⟨h1.1, h2.2.1, h2.2.2⟩

/-- Claim C7: for a link classified as a cross-document reference, when a
title-lookup callback is present the emitted `ri:content-title` attribute
value is the callback's result escaped by the (modelled) `mistune.escape`
with `quote=True`; when the callback returns the empty string the attribute
is empty and the hook still returns normally. -/
theorem claimC7_crossdoc_title (r : ConfluenceRenderer)
    (f : List Char → List Char) (src : List Char) (title : Option (List Char))
    (text : List Char) (hf : r.get_page_title = some f)
    (hnet : netloc src = []) (hres : resolve_link src = Link.MD_PAGE_REFERENCE) :
    (r.link src title text).html
        = str "<ac:link>\n    <ri:page ri:content-title=\""
            ++ mistuneEscape true (f src)
            ++ str "\" />\n    <ac:plain-text-link-body>\n        <![CDATA["
            ++ text ++ str "]]>\n    </ac:plain-text-link-body>\n</ac:link>\n"
      ∧ (f src = [] →
          (r.link src title text).html
            = str "<ac:link>\n    <ri:page ri:content-title=\""
                ++ str "\" />\n    <ac:plain-text-link-body>\n        <![CDATA["
                ++ text ++ str "]]>\n    </ac:plain-text-link-body>\n</ac:link>\n") := by
  have hmain : (r.link src title text).html
      = str "<ac:link>\n    <ri:page ri:content-title=\""
          ++ mistuneEscape true (f src)
          ++ str "\" />\n    <ac:plain-text-link-body>\n        <![CDATA["
          ++ text ++ str "]]>\n    </ac:plain-text-link-body>\n</ac:link>\n" := by
    simp only [ConfluenceRenderer.link]
    rw [if_neg (fun hcon => hcon hnet), hres, hf]
    rfl
  refine ⟨hmain, fun h0 => ?_⟩
  rw [hmain, h0]
  rw [show mistuneEscape true ([] : List Char) = [] from rfl, List.append_nil]

/-- Claim C7 witness: a concrete callback result is escaped into the
attribute, and an empty callback result yields an empty attribute. -/
theorem claimC7_witness :
    (ConfluenceRenderer.link
        ⟨false, [], samplePage, some (fun _ => str "A \"B\" & C")⟩
        (str "other/doc.md") none (str "t")).html
      = str "<ac:link>\n    <ri:page ri:content-title=\"A &quot;B&quot; &amp; C\" />\n    <ac:plain-text-link-body>\n        <![CDATA[t]]>\n    </ac:plain-text-link-body>\n</ac:link>\n"
      ∧ (ConfluenceRenderer.link
        ⟨false, [], samplePage, some (fun _ => ([] : List Char))⟩
        (str "other/doc.md") none (str "t")).html
      = str "<ac:link>\n    <ri:page ri:content-title=\"\" />\n    <ac:plain-text-link-body>\n        <![CDATA[t]]>\n    </ac:plain-text-link-body>\n</ac:link>\n" :=
  ⟨((claimC7_crossdoc_title _ _ _ none _ rfl (by decide) (by decide)).1).trans
      (by decide),
    ((claimC7_crossdoc_title _ _ _ none _ rfl (by decide) (by decide)).2 rfl).trans
      (by decide)⟩

/-- Claim C8: for a link classified HEADING, the emitted `ac:link` has
`ac:anchor` equal to the link's title attribute (empty when the title is
absent) — the right-hand side never mentions the fragment `src` — with the
link text as CDATA body, and the renderer is unchanged. -/
theorem claimC8_heading_anchor (r : ConfluenceRenderer) (src : List Char)
    (title : Option (List Char)) (text : List Char)
    (hnet : netloc src = []) (hres : resolve_link src = Link.HEADING) :
    (r.link src title text).html
        = str "<ac:link ac:anchor=\"" ++ orEmpty title
            ++ str "\">\n    <ac:plain-text-link-body>\n        <![CDATA["
            ++ text ++ str "]]>\n    </ac:plain-text-link-body>\n</ac:link>\n"
      ∧ (r.link src title text).renderer = r := by
  constructor <;>
  · simp only [ConfluenceRenderer.link]
    rw [if_neg (fun hcon => hcon hnet), hres]

/-- Claim C8 witness: the anchor comes from the title attribute (and is
empty when the title is absent), not from the fragment `#details`. -/
theorem claimC8_witness :
    (sampleRenderer.link (str "#details") (some (str "Heading A")) (str "t")).html
      = str "<ac:link ac:anchor=\"Heading A\">\n    <ac:plain-text-link-body>\n        <![CDATA[t]]>\n    </ac:plain-text-link-body>\n</ac:link>\n"
      ∧ (sampleRenderer.link (str "#details") none (str "t")).html
      = str "<ac:link ac:anchor=\"\">\n    <ac:plain-text-link-body>\n        <![CDATA[t]]>\n    </ac:plain-text-link-body>\n</ac:link>\n" :=
  ⟨((claimC8_heading_anchor sampleRenderer (str "#details") (some (str "Heading A"))
      (str "t") (by decide) (by decide)).1).trans (by decide),
    ((claimC8_heading_anchor sampleRenderer (str "#details") none (str "t")
      (by decide) (by decide)).1).trans (by decide)⟩

/-- Claim C9: constructing the renderer with a missing (`None`/falsy) or
non-`AbstractConfluencePage` layout collaborator yields the
`InvalidArgumentException` for `page_layout` before anything else; a valid
layout instance always constructs successfully. -/
theorem claimC9_layout_validation :
    (∀ gt, ConfluenceRenderer.init PageLayoutArg.pyNone gt
        = Except.error ⟨str "page_layout"⟩)
      ∧ (∀ b gt, ConfluenceRenderer.init (PageLayoutArg.other b) gt
        = Except.error ⟨str "page_layout"⟩)
      ∧ (∀ p gt, ∃ rdr, ConfluenceRenderer.init (PageLayoutArg.page p) gt
        = Except.ok rdr) := by
  refine ⟨fun gt => rfl, fun b gt => ?_, fun p gt => ⟨_, rfl⟩⟩
  cases b <;> rfl

/-- Claim C10: constructing with a non-callable title-lookup argument does
not raise — the renderer is created with `get_page_title = None` — and a
cross-document link then emits the link's own title attribute verbatim
(empty when absent) as the `ri:content-title` value, with no escaping. -/
theorem claimC10_noncallable_title (p : AbstractConfluencePage)
    (src : List Char) (title : Option (List Char)) (text : List Char)
    (hnet : netloc src = []) (hres : resolve_link src = Link.MD_PAGE_REFERENCE) :
    ∃ r, ConfluenceRenderer.init (PageLayoutArg.page p) TitleFuncArg.notCallable
        = Except.ok r
      ∧ r.get_page_title = none
      ∧ (r.link src title text).html
        = str "<ac:link>\n    <ri:page ri:content-title=\"" ++ orEmpty title
            ++ str "\" />\n    <ac:plain-text-link-body>\n        <![CDATA["
            ++ text ++ str "]]>\n    </ac:plain-text-link-body>\n</ac:link>\n" := by
  refine ⟨_, rfl, rfl, ?_⟩
  simp only [ConfluenceRenderer.link]
  rw [if_neg (fun hcon => hcon hnet), hres]

/-- Claim C10 witness: a title containing `&` and `"` is emitted verbatim,
and an absent title yields an empty attribute. -/
theorem claimC10_witness :
    (∃ r, ConfluenceRenderer.init (PageLayoutArg.page samplePage)
          TitleFuncArg.notCallable = Except.ok r
      ∧ r.get_page_title = none
      ∧ (r.link (str "other/doc.md") (some (str "A & \"B\"")) (str "t")).html
        = str "<ac:link>\n    <ri:page ri:content-title=\"A & \"B\"\" />\n    <ac:plain-text-link-body>\n        <![CDATA[t]]>\n    </ac:plain-text-link-body>\n</ac:link>\n")
      ∧ (∃ r, ConfluenceRenderer.init (PageLayoutArg.page samplePage)
          TitleFuncArg.notCallable = Except.ok r
      ∧ (r.link (str "other/doc.md") none (str "t")).html
        = str "<ac:link>\n    <ri:page ri:content-title=\"\" />\n    <ac:plain-text-link-body>\n        <![CDATA[t]]>\n    </ac:plain-text-link-body>\n</ac:link>\n") := by
  constructor
  · obtain ⟨r, h1, h2, h3⟩ := claimC10_noncallable_title samplePage
      (str "other/doc.md") (some (str "A & \"B\"")) (str "t") (by decide) (by decide)
    exact ⟨r, h1, h2, h3.trans (by decide)⟩
  · obtain ⟨r, h1, h2, h3⟩ := claimC10_noncallable_title samplePage
      (str "other/doc.md") none (str "t") (by decide) (by decide)
    exact ⟨r, h1, h3.trans (by decide)⟩
